import Mathlib

/-!
Verification of the CodeRefactorInsight monitoring bot (`src/main.py`).

The development shallowly embeds the pipeline of `main.py`:
`fetch_with_retries` (retry loop with exponential backoff),
`fetch_github_commits` (commit reader), `run_pylint` (linter subprocess
wrapper) and `process_task` (the background pipeline).  External effects
(HTTP requests, the filesystem, subprocesses) are modelled by an explicit
environment, and the pipeline returns, next to its result, a record of the
observable effects it performed.
-/

namespace CodeRefactorInsight

/-- One commit object of the upstream GitHub commit-listing response, holding
the fields `main.py` reads: `sha`, `commit.message`, `commit.author.name`,
`commit.author.date`. -/
structure UpstreamCommit where
  sha : String
  commit_message : String
  commit_author_name : String
  commit_author_date : String
deriving Repr, DecidableEq

/-- The body of a successful HTTP response, as seen through `response.json()`
and the subsequent key accesses in `fetch_github_commits`: either a
well-formed list of commit objects, or data on which `.json()` or a key
access raises (line 81 and the comprehension of lines 82-90). -/
inductive ResponseBody where
  | commitList (cs : List UpstreamCommit)
  | malformed (desc : String)
deriving Repr, DecidableEq

/-- The outcome of one `client.get` attempt inside `fetch_with_retries`
(lines 58-59): a response whose `raise_for_status` passes, a transient
failure (`httpx.ConnectTimeout` / `httpx.NetworkError`, line 61), or an
HTTP error status raised by `raise_for_status` (`httpx.HTTPStatusError`). -/
inductive AttemptOutcome where
  | success (resp : ResponseBody)
  | transient (e : String)
  | httpError (status : Nat) (body : String)
deriving Repr, DecidableEq

/-- How a call to `fetch_with_retries` ends: a returned response, a
propagated transient exception (line 68 `raise e`), a propagated
`HTTPStatusError` (uncaught by the `except` clause of line 61), or the
implicit `None` returned when the `for` loop body never runs. -/
inductive FetchResult where
  | ok (resp : ResponseBody)
  | raisedTransient (e : String)
  | raisedHTTP (status : Nat) (body : String)
  | returnedNone
deriving Repr, DecidableEq

/-- The loop of `fetch_with_retries` (lines 56-68).  `fuel` is the number of
remaining iterations (`retries - attempt`), `attempt` the current loop
index.  Returns the result, the number of request attempts performed, and
the total time slept in backoff (`await asyncio.sleep(2 ** attempt)`,
lines 63-65).  The `attempt < retries - 1` test of line 62 is `fuel' ≠ 0`. -/
def fetchAux (env : Nat → AttemptOutcome) : Nat → Nat → FetchResult × Nat × Nat
  | 0, _ => (.returnedNone, 0, 0)
  | fuel' + 1, attempt =>
    match env attempt with
    | .success r => (.ok r, 1, 0)
    | .httpError s b => (.raisedHTTP s b, 1, 0)
    | .transient e =>
      match fuel' with
      | 0 => (.raisedTransient e, 1, 0)
      | k + 1 =>
        let p := fetchAux env (k + 1) (attempt + 1)
        (p.1, p.2.1 + 1, p.2.2 + 2 ^ attempt)

/-- `fetch_with_retries(url, headers, retries, timeout)` of lines 53-68,
with the per-attempt network behaviour abstracted as `env`. -/
def fetch_with_retries (env : Nat → AttemptOutcome) (retries : Nat) :
    FetchResult × Nat × Nat :=
  fetchAux env retries 0

/-- The normalized commit record built in lines 82-90 of
`fetch_github_commits`. -/
structure CommitRecord where
  sha : String
  message : String
  author : String
  date : String
deriving Repr, DecidableEq

/-- The per-commit mapping of lines 83-88. -/
def toCommitRecord (c : UpstreamCommit) : CommitRecord :=
  { sha := c.sha
    message := c.commit_message
    author := c.commit_author_name
    date := c.commit_author_date }

/-- Return value of `fetch_github_commits`: `Union[List[dict], dict]` where
the dict case is the `{'error': ...}` mapping. -/
inductive CommitsResult where
  | ok (commits : List CommitRecord)
  | error (msg : String)
deriving Repr, DecidableEq

/-- `fetch_github_commits(owner, repo, count)` of lines 70-96.  `token`
models the `GITHUB_TOKEN` environment value (`os.getenv` returns `None`
when unset); `env` the network.  Line 71's `if not GITHUB_TOKEN:` is a
truthiness test, so both an unset token and an empty-string token take the
error return of lines 71-73.  The second component counts the HTTP request
attempts actually performed (0 on that early return).  The call of line 80
leaves `retries` at its default 3.  `HTTPStatusError` is caught at line 91
and any other exception at line 94; both become `{'error': ...}`
mappings. -/
def fetch_github_commits (token : Option String) (env : Nat → AttemptOutcome)
    (count : Nat) : CommitsResult × Nat :=
  match token with
  | none => (.error "GITHUB_TOKEN not set", 0)
  | some t =>
    if t = "" then
      (.error "GITHUB_TOKEN not set", 0)
    else
    match (fetch_with_retries env 3).1 with
    | .ok (.commitList cs) =>
        (.ok ((cs.take count).map toCommitRecord), (fetch_with_retries env 3).2.1)
    | .ok (.malformed d) =>
        (.error ("Unexpected error fetching GitHub commits: " ++ d),
          (fetch_with_retries env 3).2.1)
    | .raisedHTTP s b =>
        (.error ("GitHub API error: " ++ toString s ++ " " ++ b),
          (fetch_with_retries env 3).2.1)
    | .raisedTransient e =>
        (.error ("Unexpected error fetching GitHub commits: " ++ e),
          (fetch_with_retries env 3).2.1)
    | .returnedNone =>
        (.error "Unexpected error fetching GitHub commits: NoneType object has no attribute json",
          (fetch_with_retries env 3).2.1)

/-- One run of the `pylint` subprocess: its exit code and the standard
output it produced (captured by `capture_output=True`). -/
structure PylintRun where
  exitCode : Nat
  stdout : String
deriving Repr, DecidableEq

/-- `run_pylint(target_dir)` of lines 35-41.  With `check=True` a non-zero
exit raises `CalledProcessError`, which is caught and its `output` field
(the captured standard output) returned, so both branches yield the
captured stdout. -/
def run_pylint (r : PylintRun) : String :=
  if r.exitCode = 0 then
    r.stdout
  else
    r.stdout

/-- The `report_data` dict of lines 136-140. -/
structure Report where
  commits : List String
  pylint_analysis : String
  summary : String
deriving Repr, DecidableEq

/-- Observable effects of one `process_task` run: HTTP request attempts made
by the commit fetch, `git clone` invocations, `pylint` invocations, payloads
posted to the Telex logging webhook, and message payloads posted to the
caller-supplied return URL. -/
structure Effects where
  fetchRequests : Nat
  clones : Nat
  pylintRuns : Nat
  telexPosts : List Report
  callbackPosts : List String
deriving Repr, DecidableEq

/-- How the background task ends: normal return, `CalledProcessError` from
the `check=True` git clone of line 133, or the `HTTPException` raised at
line 156 after the callback POST fails. -/
inductive TaskResult where
  | completed
  | cloneFailed
  | callbackFailed
deriving Repr, DecidableEq

/-- The environment one `process_task` run interacts with: the
`GITHUB_TOKEN` value, the network behaviour of the commit fetch, whether
`os.path.exists(target_dir)` holds (line 132), whether the git clone exits
zero, the pylint run, and whether the two outbound POSTs succeed. -/
structure PipelineEnv where
  token : Option String
  fetchEnv : Nat → AttemptOutcome
  pathExists : Bool
  cloneSucceeds : Bool
  pylint : PylintRun
  telexSucceeds : Bool
  callbackSucceeds : Bool

/-- The insight line of lines 125-128: `- [<sha[:7]>] <message> by <author>`. -/
def commitLine (c : CommitRecord) : String :=
  "- [" ++ c.sha.take 7 ++ "] " ++ c.message ++ " by " ++ c.author

/-- The tail of `process_task` after the clone step (lines 134-156): run
pylint, build `report_data`, post it to Telex (failures swallowed by
`log_to_telex`, lines 43-51), build `data` and post it to the return URL,
raising `HTTPException` on failure. -/
def deliverPhase (owner repo : String) (env : PipelineEnv)
    (insights : List String) (fetchReq clones : Nat) : TaskResult × Effects :=
  { commits := insights
    pylint_analysis := run_pylint env.pylint
    summary := "Periodic report with key insights from GitHub and Pylint analysis"
    : Report } |> fun report =>
  (" " ++ owner ++ "\n " ++ repo ++ "\n Recent Code Changes:\n\n"
      ++ String.intercalate "\n" insights
      ++ "\n\n🔍 Pylint Analysis:\n" ++ run_pylint env.pylint) |> fun message =>
  if env.callbackSucceeds then
    (.completed,
      { fetchRequests := fetchReq, clones := clones, pylintRuns := 1
        telexPosts := [report], callbackPosts := [message] })
  else
    (.callbackFailed,
      { fetchRequests := fetchReq, clones := clones, pylintRuns := 1
        telexPosts := [report], callbackPosts := [message] })

/-- `process_task(owner, repo, return_url)` of lines 118-156.  The commit
fetch runs first; on an error mapping the task returns at line 123 before
any clone, lint, formatting or delivery.  Otherwise the clone is performed
only if the path is absent (`check=True`, so a failing clone raises), then
the delivery phase runs. -/
def process_task (owner repo : String) (env : PipelineEnv) :
    TaskResult × Effects :=
  match (fetch_github_commits env.token env.fetchEnv 3).1 with
  | .error _ =>
    (.completed,
      { fetchRequests := (fetch_github_commits env.token env.fetchEnv 3).2
        clones := 0, pylintRuns := 0, telexPosts := [], callbackPosts := [] })
  | .ok commits =>
    if env.pathExists then
      deliverPhase owner repo env (commits.map commitLine)
        (fetch_github_commits env.token env.fetchEnv 3).2 0
    else if env.cloneSucceeds then
      deliverPhase owner repo env (commits.map commitLine)
        (fetch_github_commits env.token env.fetchEnv 3).2 1
    else
      (.cloneFailed,
        { fetchRequests := (fetch_github_commits env.token env.fetchEnv 3).2
          clones := 1, pylintRuns := 0, telexPosts := [], callbackPosts := [] })

/-! ### Sample environments, used to evaluate the theorems on concrete
inputs -/

/-- A network on which every attempt fails with a connection error. -/
def envAlwaysTransient : Nat → AttemptOutcome :=
  fun _ => .transient "econn"

/-- A network that fails transiently once, then serves an empty commit
list. -/
def envFailThenSuccess : Nat → AttemptOutcome :=
  fun i => if i = 0 then .transient "econn" else .success (.commitList [])

/-- A network that fails transiently once, then answers 404. -/
def envFailThenHttp404 : Nat → AttemptOutcome :=
  fun i => if i = 0 then .transient "econn" else .httpError 404 "Not Found"

/-- A network that always serves an empty commit list. -/
def envSuccessEmpty : Nat → AttemptOutcome :=
  fun _ => .success (.commitList [])

/-- Two well-formed upstream commits. -/
def sampleCommits : List UpstreamCommit :=
  [{ sha := "abc1234def", commit_message := "fix bug",
     commit_author_name := "alice", commit_author_date := "2025-02-22" },
   { sha := "9876543fed", commit_message := "add feature",
     commit_author_name := "bob", commit_author_date := "2025-02-23" }]

/-- A network that always serves `sampleCommits`. -/
def envSuccessSample : Nat → AttemptOutcome :=
  fun _ => .success (.commitList sampleCommits)

/-- A network serving one commit whose `sha` is the empty string. -/
def envEmptySha : Nat → AttemptOutcome :=
  fun _ => .success (.commitList
    [{ sha := "", commit_message := "m",
       commit_author_name := "a", commit_author_date := "d" }])

/-- A pipeline environment with no `GITHUB_TOKEN` configured. -/
def envNoToken : PipelineEnv :=
  { token := none, fetchEnv := envSuccessEmpty, pathExists := true,
    cloneSucceeds := true, pylint := { exitCode := 0, stdout := "ok" },
    telexSucceeds := true, callbackSucceeds := true }

/-- A healthy pipeline environment: token set, commits served, clone path
absent, everything downstream succeeds; pylint exits non-zero with
findings. -/
def envHealthy : PipelineEnv :=
  { token := some "tok", fetchEnv := envSuccessSample, pathExists := false,
    cloneSucceeds := true, pylint := { exitCode := 16, stdout := "lint findings" },
    telexSucceeds := true, callbackSucceeds := true }

/-- Like `envHealthy` but the git clone exits non-zero. -/
def envCloneFails : PipelineEnv :=
  { token := some "tok", fetchEnv := envSuccessSample, pathExists := false,
    cloneSucceeds := false, pylint := { exitCode := 0, stdout := "ok" },
    telexSucceeds := true, callbackSucceeds := true }

/-- Like `envHealthy` but the clone path already exists and the callback
POST fails. -/
def envCallbackFails : PipelineEnv :=
  { token := some "tok", fetchEnv := envSuccessSample, pathExists := true,
    cloneSucceeds := true, pylint := { exitCode := 0, stdout := "ok" },
    telexSucceeds := true, callbackSucceeds := false }

/-! ### Helper lemmas about the retry loop -/

/-- Arithmetic of the accumulated backoff: one more failed attempt at index
`a` in front of `m` further failures. -/
lemma backoff_step (a m : Nat) :
    2 ^ (a + 1) * (2 ^ m - 1) + 2 ^ a = 2 ^ a * (2 ^ (m + 1) - 1) := by
  have h1 : 1 ≤ 2 ^ m := Nat.one_le_two_pow
  obtain ⟨b, hb⟩ : ∃ b, 2 ^ m = b + 1 := ⟨2 ^ m - 1, by omega⟩
  have h2 : 2 ^ (m + 1) - 1 = 2 * b + 1 := by
    rw [pow_succ, hb]; omega
  have h3 : 2 ^ m - 1 = b := by omega
  rw [h2, h3, pow_succ]
  ring

/-- The geometric sum `2^0 + ... + 2^(N-1)` in closed form. -/
lemma sum_two_pow (N : Nat) : ∑ i ∈ Finset.range N, 2 ^ i = 2 ^ N - 1 := by
  induction N with
  | zero => simp
  | succ k ih =>
    rw [Finset.sum_range_succ, ih]
    have h1 : 1 ≤ 2 ^ k := Nat.one_le_two_pow
    have h2 : 2 ^ (k + 1) = 2 ^ k * 2 := pow_succ 2 k
    omega

/-- Unfolding: an attempt that gets a successful response returns it at
once (lines 58-60). -/
lemma fetchAux_succ_success (env : Nat → AttemptOutcome) (f attempt : Nat)
    (r : ResponseBody) (h : env attempt = .success r) :
    fetchAux env (f + 1) attempt = (.ok r, 1, 0) := by
  conv_lhs => rw [fetchAux]
  rw [h]

/-- Unfolding: an attempt that raises `HTTPStatusError` propagates it at
once, whatever fuel remains (the `except` clause of line 61 does not catch
it). -/
lemma fetchAux_succ_http (env : Nat → AttemptOutcome) (f attempt s : Nat)
    (b : String) (h : env attempt = .httpError s b) :
    fetchAux env (f + 1) attempt = (.raisedHTTP s b, 1, 0) := by
  conv_lhs => rw [fetchAux]
  rw [h]

/-- Unfolding: a transient failure on the last iteration is re-raised
(line 68). -/
lemma fetchAux_last_transient (env : Nat → AttemptOutcome) (attempt : Nat)
    (e : String) (h : env attempt = .transient e) :
    fetchAux env (0 + 1) attempt = (.raisedTransient e, 1, 0) := by
  conv_lhs => rw [fetchAux]
  rw [h]

/-- Unfolding: a transient failure with iterations left sleeps
`2 ^ attempt` and retries (lines 62-65). -/
lemma fetchAux_step_transient (env : Nat → AttemptOutcome) (k attempt : Nat)
    (e : String) (h : env attempt = .transient e) :
    fetchAux env (k + 1 + 1) attempt =
      ((fetchAux env (k + 1) (attempt + 1)).1,
       (fetchAux env (k + 1) (attempt + 1)).2.1 + 1,
       (fetchAux env (k + 1) (attempt + 1)).2.2 + 2 ^ attempt) := by
  conv_lhs => rw [fetchAux]
  rw [h]

/-- If every attempt fails transiently, the loop performs one attempt per
unit of fuel and ends by re-raising the last transient failure. -/
lemma fetchAux_transient (env : Nat → AttemptOutcome) (es : Nat → String)
    (h : ∀ i, env i = .transient (es i)) :
    ∀ fuel attempt,
      (fetchAux env (fuel + 1) attempt).1 = .raisedTransient (es (attempt + fuel)) ∧
      (fetchAux env (fuel + 1) attempt).2.1 = fuel + 1 := by
  intro fuel
  induction fuel with
  | zero =>
    intro attempt
    rw [fetchAux_last_transient env attempt (es attempt) (h attempt), Nat.add_zero]
    exact ⟨rfl, rfl⟩
  | succ k ih =>
    intro attempt
    have hk := ih (attempt + 1)
    have harg : attempt + 1 + k = attempt + (k + 1) := by omega
    rw [harg] at hk
    rw [fetchAux_step_transient env k attempt (es attempt) (h attempt)]
    refine ⟨hk.1, ?_⟩
    show (fetchAux env (k + 1) (attempt + 1)).2.1 + 1 = k + 1 + 1
    rw [hk.2]

/-- If the first `n` attempts starting at `attempt` fail transiently and
attempt `attempt + n` succeeds, with enough fuel the loop returns the
response after `n + 1` attempts and a cumulative backoff of
`2^attempt * (2^n - 1)`. -/
lemma fetchAux_success (env : Nat → AttemptOutcome) (r : ResponseBody) :
    ∀ n attempt fuel, (∀ i, i < n → ∃ e, env (attempt + i) = .transient e) →
      env (attempt + n) = .success r → n < fuel →
      fetchAux env fuel attempt = (.ok r, n + 1, 2 ^ attempt * (2 ^ n - 1)) := by
  intro n
  induction n with
  | zero =>
    intro attempt fuel _ hs hf
    obtain ⟨f, rfl⟩ : ∃ f, fuel = f + 1 := ⟨fuel - 1, by omega⟩
    rw [Nat.add_zero] at hs
    rw [fetchAux_succ_success env f attempt r hs]
    simp
  | succ m ih =>
    intro attempt fuel ht hs hf
    obtain ⟨e0, he0⟩ := ht 0 (by omega)
    rw [Nat.add_zero] at he0
    obtain ⟨g, rfl⟩ : ∃ g, fuel = g + 1 + 1 := ⟨fuel - 2, by omega⟩
    have hrec := ih (attempt + 1) (g + 1)
      (fun i hi => by
        have hx := ht (i + 1) (by omega)
        have harg : attempt + (i + 1) = attempt + 1 + i := by omega
        rwa [harg] at hx)
      (by
        have harg : attempt + (m + 1) = attempt + 1 + m := by omega
        rwa [harg] at hs)
      (by omega)
    rw [fetchAux_step_transient env g attempt e0 he0, hrec]
    simp only [Prod.mk.injEq, true_and, and_true]
    exact backoff_step attempt m

/-- If the first `k` attempts starting at `attempt` fail transiently and
attempt `attempt + k` raises an HTTP status error, with enough fuel the
loop propagates that error after exactly `k + 1` attempts. -/
lemma fetchAux_http (env : Nat → AttemptOutcome) (s : Nat) (b : String) :
    ∀ k attempt fuel, (∀ i, i < k → ∃ e, env (attempt + i) = .transient e) →
      env (attempt + k) = .httpError s b → k < fuel →
      (fetchAux env fuel attempt).1 = .raisedHTTP s b ∧
      (fetchAux env fuel attempt).2.1 = k + 1 := by
  intro k
  induction k with
  | zero =>
    intro attempt fuel _ hh hf
    obtain ⟨f, rfl⟩ : ∃ f, fuel = f + 1 := ⟨fuel - 1, by omega⟩
    rw [Nat.add_zero] at hh
    rw [fetchAux_succ_http env f attempt s b hh]
    exact ⟨rfl, rfl⟩
  | succ m ih =>
    intro attempt fuel ht hh hf
    obtain ⟨e0, he0⟩ := ht 0 (by omega)
    rw [Nat.add_zero] at he0
    obtain ⟨g, rfl⟩ : ∃ g, fuel = g + 1 + 1 := ⟨fuel - 2, by omega⟩
    have hrec := ih (attempt + 1) (g + 1)
      (fun i hi => by
        have hx := ht (i + 1) (by omega)
        have harg : attempt + (i + 1) = attempt + 1 + i := by omega
        rwa [harg] at hx)
      (by
        have harg : attempt + (m + 1) = attempt + 1 + m := by omega
        rwa [harg] at hh)
      (by omega)
    rw [fetchAux_step_transient env g attempt e0 he0]
    refine ⟨hrec.1, ?_⟩
    show (fetchAux env (g + 1) (attempt + 1)).2.1 + 1 = m + 1 + 1
    rw [hrec.2]

/-- Elements of a take are elements of the list. -/
lemma mem_take_subset {α : Type} (n : Nat) (l : List α) (a : α)
    (h : a ∈ l.take n) : a ∈ l := by
  induction l generalizing n with
  | nil => simp at h
  | cons x xs ih =>
    match n with
    | 0 => simp [List.take] at h
    | m + 1 =>
      rw [List.take_succ_cons] at h
      rcases List.mem_cons.mp h with h1 | h2
      · exact h1 ▸ List.mem_cons_self x xs
      · exact List.mem_cons_of_mem x (ih m h2)

/-! ### Claim theorems: the retrying fetcher -/

/-- C2 counterexample: with `retries = 0` the `for attempt in range(0)`
loop body never runs, so zero request attempts are performed — not exactly
one as the claim states — and the function falls through to an implicit
`return None`. -/
theorem fetch_retries_zero_cex :
    (fetch_with_retries envSuccessEmpty 0).2.1 = 0 ∧
      (fetch_with_retries envSuccessEmpty 0).2.1 ≠ 1 ∧
      fetch_with_retries envSuccessEmpty 0 = (.returnedNone, 0, 0) := by
  refine ⟨rfl, by decide, rfl⟩

/-- C2 (amended): a call with `retries = 1` performs exactly one request
attempt and no backoff wait; a call with `retries = 0` performs no attempt
at all (and no wait), returning `None`. -/
theorem fetch_retries_low (env : Nat → AttemptOutcome) :
    (fetch_with_retries env 1).2.1 = 1 ∧ (fetch_with_retries env 1).2.2 = 0 ∧
      fetch_with_retries env 0 = (.returnedNone, 0, 0) := by
  have key : (fetch_with_retries env 1).2.1 = 1 ∧ (fetch_with_retries env 1).2.2 = 0 := by
    cases h : env 0 with
    | success r =>
      have hx : fetch_with_retries env 1 = (.ok r, 1, 0) :=
        fetchAux_succ_success env 0 0 r h
      rw [hx]; exact ⟨rfl, rfl⟩
    | transient e =>
      have hx : fetch_with_retries env 1 = (.raisedTransient e, 1, 0) :=
        fetchAux_last_transient env 0 e h
      rw [hx]; exact ⟨rfl, rfl⟩
    | httpError s b =>
      have hx : fetch_with_retries env 1 = (.raisedHTTP s b, 1, 0) :=
        fetchAux_succ_http env 0 0 s b h
      rw [hx]; exact ⟨rfl, rfl⟩
  exact ⟨key.1, key.2, rfl⟩

/-- C3: against a target whose every attempt fails transiently, a call with
`retries = R ≥ 1` performs exactly `R` request attempts and propagates the
failure of the final attempt (attempt `R - 1`) to the caller. -/
theorem fetch_all_transient (env : Nat → AttemptOutcome) (es : Nat → String)
    (h : ∀ i, env i = .transient (es i)) (R : Nat) (hR : 1 ≤ R) :
    (fetch_with_retries env R).2.1 = R ∧
      (fetch_with_retries env R).1 = .raisedTransient (es (R - 1)) := by
  obtain ⟨k, rfl⟩ : ∃ k, R = k + 1 := ⟨R - 1, by omega⟩
  have hx := fetchAux_transient env es h k 0
  refine ⟨hx.2, ?_⟩
  rw [show k + 1 - 1 = k from by omega]
  have h1 := hx.1
  rwa [Nat.zero_add] at h1

/-- C3 witness: two attempts, final connection error propagated. -/
theorem fetch_all_transient_witness :
    (fetch_with_retries envAlwaysTransient 2).2.1 = 2 ∧
      (fetch_with_retries envAlwaysTransient 2).1 = .raisedTransient "econn" :=
  fetch_all_transient envAlwaysTransient (fun _ => "econn") (fun _ => rfl) 2
    (by omega)

/-- C4: against a target failing transiently on attempts `0..N-1` and
succeeding on attempt `N`, a call with `retries ≥ N + 1` returns the
successful response after `N + 1` attempts, having slept at least
`2^0 + 2^1 + ... + 2^(N-1)` time units between attempts. -/
theorem fetch_eventual_success (env : Nat → AttemptOutcome)
    (r : ResponseBody) (N R : Nat)
    (ht : ∀ i, i < N → ∃ e, env i = .transient e)
    (hs : env N = .success r) (hR : N + 1 ≤ R) :
    (fetch_with_retries env R).1 = .ok r ∧
      (fetch_with_retries env R).2.1 = N + 1 ∧
      ∑ i ∈ Finset.range N, 2 ^ i ≤ (fetch_with_retries env R).2.2 := by
  have hx : fetchAux env R 0 = (.ok r, N + 1, 2 ^ 0 * (2 ^ N - 1)) :=
    fetchAux_success env r N 0 R
      (fun i hi => by rw [Nat.zero_add]; exact ht i hi)
      (by rwa [Nat.zero_add]) (by omega)
  have hW : fetch_with_retries env R = (.ok r, N + 1, 2 ^ N - 1) := by
    have h0 : 2 ^ 0 * (2 ^ N - 1) = 2 ^ N - 1 := by rw [pow_zero, one_mul]
    rw [show fetch_with_retries env R = fetchAux env R 0 from rfl, hx, h0]
  refine ⟨by rw [hW], by rw [hW], ?_⟩
  rw [hW, sum_two_pow]

/-- C4 witness: one transient failure, then success, `retries = 3`:
two attempts, one backoff unit slept. -/
theorem fetch_eventual_success_witness :
    (fetch_with_retries envFailThenSuccess 3).1 = .ok (.commitList []) ∧
      (fetch_with_retries envFailThenSuccess 3).2.1 = 2 ∧
      ∑ i ∈ Finset.range 1, 2 ^ i ≤ (fetch_with_retries envFailThenSuccess 3).2.2 :=
  fetch_eventual_success envFailThenSuccess (.commitList []) 1 3
    (fun i hi => ⟨"econn", by
      have h0 : i = 0 := by omega
      subst h0
      rfl⟩)
    rfl (by omega)

/-- C5: a non-transient failure (an HTTP error status raised by
`raise_for_status`) is not caught by the retry clause: it is propagated,
with its status and body, on the very attempt that produced it, and no
further attempt is performed. -/
theorem fetch_http_no_retry (env : Nat → AttemptOutcome) (s : Nat)
    (b : String) (k R : Nat)
    (ht : ∀ i, i < k → ∃ e, env i = .transient e)
    (hh : env k = .httpError s b) (hk : k < R) :
    (fetch_with_retries env R).1 = .raisedHTTP s b ∧
      (fetch_with_retries env R).2.1 = k + 1 := by
  exact fetchAux_http env s b k 0 R
    (fun i hi => by rw [Nat.zero_add]; exact ht i hi)
    (by rwa [Nat.zero_add]) hk

/-- C5 witness: a 404 on attempt 1 (after one transient failure) ends the
call at attempt 1 even though `retries = 3` would allow a third attempt. -/
theorem fetch_http_no_retry_witness :
    (fetch_with_retries envFailThenHttp404 3).1 = .raisedHTTP 404 "Not Found" ∧
      (fetch_with_retries envFailThenHttp404 3).2.1 = 2 :=
  fetch_http_no_retry envFailThenHttp404 404 "Not Found" 1 3
    (fun i hi => ⟨"econn", by
      have h0 : i = 0 := by omega
      subst h0
      rfl⟩)
    rfl (by omega)

/-! ### Claim theorems: the commit reader -/

/-- C6: `fetch_github_commits` always returns either a commit list or an
`error` mapping (no exception escapes its boundary), and when
`GITHUB_TOKEN` is absent it returns the error mapping immediately, with
zero HTTP request attempts performed. -/
theorem fetch_github_commits_shape (token : Option String)
    (env : Nat → AttemptOutcome) (count : Nat) :
    ((∃ l, (fetch_github_commits token env count).1 = .ok l) ∨
      (∃ m, (fetch_github_commits token env count).1 = .error m)) ∧
      (token = none →
        fetch_github_commits token env count = (.error "GITHUB_TOKEN not set", 0)) := by
  constructor
  · cases h : (fetch_github_commits token env count).1 with
    | ok l => exact Or.inl ⟨l, rfl⟩
    | error m => exact Or.inr ⟨m, rfl⟩
  · rintro rfl
    rfl

/-- C6 witness: with no token, the error mapping comes back at once and no
request is attempted. -/
theorem fetch_github_commits_shape_witness :
    fetch_github_commits none envSuccessEmpty 3 = (.error "GITHUB_TOKEN not set", 0) :=
  (fetch_github_commits_shape none envSuccessEmpty 3).2 rfl

/-- C7 counterexample: a successful upstream response whose single commit
has an empty `sha` yields a CommitRecord whose `sha` is empty — the code
copies `commit['sha']` verbatim and never checks it, so "each with a
non-empty sha" fails. -/
theorem fetch_github_commits_empty_sha_cex :
    (fetch_github_commits (some "tok") envEmptySha 1).1 =
      .ok [{ sha := "", message := "m", author := "a", date := "d" }] ∧
      ∃ r0 ∈ [{ sha := "", message := "m", author := "a", date := "d" : CommitRecord }],
        r0.sha = "" := by
  refine ⟨rfl, ⟨{ sha := "", message := "m", author := "a", date := "d" }, ?_, rfl⟩⟩
  exact List.mem_singleton.mpr rfl

/-- C7 (amended): on a successful upstream response, with a truthy token,
`fetch_github_commits` produces the first `count` entries of the upstream
sequence in its original order, each mapped to
`{sha, message, author, date}` with the `sha` copied verbatim — hence
exactly `count` CommitRecords when the response holds at least `count`
commits, all of them when it holds fewer, and every sha non-empty whenever
the upstream shas are non-empty. -/
theorem fetch_github_commits_count (t : String) (env : Nat → AttemptOutcome)
    (cs : List UpstreamCommit) (count : Nat) (htok : t ≠ "")
    (hresp : (fetch_with_retries env 3).1 = .ok (.commitList cs)) :
    (fetch_github_commits (some t) env count).1 =
      .ok ((cs.take count).map toCommitRecord) ∧
      (count ≤ cs.length → ((cs.take count).map toCommitRecord).length = count) ∧
      (cs.length ≤ count →
        (cs.take count).map toCommitRecord = cs.map toCommitRecord) ∧
      (∀ i, i < count →
        ((cs.take count).map toCommitRecord).get? i = (cs.get? i).map toCommitRecord) ∧
      ((∀ c ∈ cs, c.sha ≠ "") →
        ∀ r0 ∈ (cs.take count).map toCommitRecord, r0.sha ≠ "") := by
  refine ⟨?_, ?_, ?_, ?_, ?_⟩
  · simp only [fetch_github_commits, if_neg htok, hresp]
  · intro hlen
    rw [List.length_map, List.length_take]
    omega
  · intro hlen
    rw [List.take_of_length_le hlen]
  · intro i hi
    rw [List.get?_map, List.get?_take hi]
  · intro hsha r0 hr0
    obtain ⟨c, hc, rfl⟩ := List.mem_map.mp hr0
    exact hsha c (mem_take_subset count cs c hc)

/-- C7 witness: two upstream commits.  With `count = 1` exactly the first
one comes back, in order, with its (non-empty) sha; with `count = 3`
(more than available) both come back. -/
theorem fetch_github_commits_count_witness :
    ((fetch_github_commits (some "tok") envSuccessSample 1).1 =
      .ok ((sampleCommits.take 1).map toCommitRecord) ∧
      (1 ≤ sampleCommits.length →
        ((sampleCommits.take 1).map toCommitRecord).length = 1) ∧
      (sampleCommits.length ≤ 1 →
        (sampleCommits.take 1).map toCommitRecord = sampleCommits.map toCommitRecord) ∧
      (∀ i, i < 1 →
        ((sampleCommits.take 1).map toCommitRecord).get? i =
          (sampleCommits.get? i).map toCommitRecord) ∧
      ((∀ c ∈ sampleCommits, c.sha ≠ "") →
        ∀ r0 ∈ (sampleCommits.take 1).map toCommitRecord, r0.sha ≠ "")) ∧
    (fetch_github_commits (some "tok") envSuccessSample 3).1 =
      .ok ((sampleCommits.take 3).map toCommitRecord) ∧
      (sampleCommits.length ≤ 3 →
        (sampleCommits.take 3).map toCommitRecord = sampleCommits.map toCommitRecord) :=
  ⟨fetch_github_commits_count "tok" envSuccessSample sampleCommits 1
      (by decide) rfl,
    (fetch_github_commits_count "tok" envSuccessSample sampleCommits 3
      (by decide) rfl).1,
    (fetch_github_commits_count "tok" envSuccessSample sampleCommits 3
      (by decide) rfl).2.2.1⟩

/-! ### Claim theorems: the background pipeline -/

/-- C1: when the commit fetch produces an error mapping, `process_task`
returns at once: no clone, no pylint run, no report posted to the logging
webhook, no message posted to the callback URL. -/
theorem process_task_short_circuit (owner repo : String) (env : PipelineEnv)
    (h : ∃ m, (fetch_github_commits env.token env.fetchEnv 3).1 = .error m) :
    (process_task owner repo env).1 = .completed ∧
      (process_task owner repo env).2.clones = 0 ∧
      (process_task owner repo env).2.pylintRuns = 0 ∧
      (process_task owner repo env).2.telexPosts = [] ∧
      (process_task owner repo env).2.callbackPosts = [] := by
  obtain ⟨m, hm⟩ := h
  simp [process_task, hm]

/-- C1 witness: with no token the fetch errors and nothing downstream
happens. -/
theorem process_task_short_circuit_witness :
    (process_task "codenamemomi" "CodeRefactorInsight_HNG12_stage3" envNoToken).1 = .completed ∧
      (process_task "codenamemomi" "CodeRefactorInsight_HNG12_stage3" envNoToken).2.clones = 0 ∧
      (process_task "codenamemomi" "CodeRefactorInsight_HNG12_stage3" envNoToken).2.pylintRuns = 0 ∧
      (process_task "codenamemomi" "CodeRefactorInsight_HNG12_stage3" envNoToken).2.telexPosts = [] ∧
      (process_task "codenamemomi" "CodeRefactorInsight_HNG12_stage3" envNoToken).2.callbackPosts = [] :=
  process_task_short_circuit "codenamemomi" "CodeRefactorInsight_HNG12_stage3" envNoToken
    ⟨"GITHUB_TOKEN not set", rfl⟩

/-- C8 counterexample: the git-clone subprocess is run with `check=True`
(line 133), so when it exits non-zero the pipeline raises
`CalledProcessError` rather than capturing its output as data: the task
fails and nothing is delivered, refuting the claim for "every subprocess
the pipeline invokes". -/
theorem process_task_clone_nonzero_cex :
    (process_task "codenamemomi" "CodeRefactorInsight_HNG12_stage3" envCloneFails).1 = .cloneFailed ∧
      (process_task "codenamemomi" "CodeRefactorInsight_HNG12_stage3" envCloneFails).2.telexPosts = [] ∧
      (process_task "codenamemomi" "CodeRefactorInsight_HNG12_stage3" envCloneFails).2.callbackPosts = [] :=
  ⟨rfl, rfl, rfl⟩

/-- C8 (amended): for the linter subprocess, a non-zero exit does not
raise past `run_pylint`: the captured standard output (`e.output`) is
returned as the analysis result, exactly as on a zero exit. The git-clone
subprocess does not share this behaviour. -/
theorem run_pylint_nonzero (r : PylintRun) (_h : r.exitCode ≠ 0) :
    run_pylint r = r.stdout := by
  simp [run_pylint]

/-- C8 witness: pylint exiting 16 with findings still yields the findings
text. -/
theorem run_pylint_nonzero_witness :
    run_pylint { exitCode := 16, stdout := "findings" } = "findings" :=
  run_pylint_nonzero { exitCode := 16, stdout := "findings" } (by decide)

/-- C9: once the pipeline reaches the local-lint step, exactly one git
clone is performed when the deterministic path is absent, and none when it
already exists (the existing checkout is left untouched). -/
theorem process_task_clone_iff_absent (owner repo : String) (env : PipelineEnv)
    (cs : List CommitRecord)
    (h : (fetch_github_commits env.token env.fetchEnv 3).1 = .ok cs) :
    (process_task owner repo env).2.clones = if env.pathExists then 0 else 1 := by
  cases hp : env.pathExists <;> cases hc : env.cloneSucceeds <;>
    cases hcb : env.callbackSucceeds <;>
      simp [process_task, h, hp, hc, hcb, deliverPhase]

/-- C9 witness: with the path absent, exactly one clone. -/
theorem process_task_clone_iff_absent_witness :
    (process_task "codenamemomi" "CodeRefactorInsight_HNG12_stage3" envHealthy).2.clones =
      if envHealthy.pathExists then 0 else 1 :=
  process_task_clone_iff_absent "codenamemomi" "CodeRefactorInsight_HNG12_stage3"
    envHealthy ((sampleCommits.take 3).map toCommitRecord) rfl

/-- C10: when the pipeline reaches the callback-delivery step and the POST
to the caller-supplied return URL fails, the background task ends in the
raising state (`HTTPException`, line 156), not in silent completion. -/
theorem process_task_callback_failure (owner repo : String) (env : PipelineEnv)
    (cs : List CommitRecord)
    (h : (fetch_github_commits env.token env.fetchEnv 3).1 = .ok cs)
    (hreach : env.pathExists = true ∨ env.cloneSucceeds = true)
    (hcb : env.callbackSucceeds = false) :
    (process_task owner repo env).1 = .callbackFailed ∧
      (process_task owner repo env).1 ≠ .completed := by
  have key : (process_task owner repo env).1 = .callbackFailed := by
    rcases hreach with hp | hc
    · simp [process_task, h, hp, deliverPhase, hcb]
    · cases hp : env.pathExists <;>
        simp [process_task, h, hp, hc, deliverPhase, hcb]
  refine ⟨key, ?_⟩
  rw [key]
  decide

/-- C10 witness: callback POST fails, the task ends raising. -/
theorem process_task_callback_failure_witness :
    (process_task "codenamemomi" "CodeRefactorInsight_HNG12_stage3" envCallbackFails).1 = .callbackFailed ∧
      (process_task "codenamemomi" "CodeRefactorInsight_HNG12_stage3" envCallbackFails).1 ≠ .completed :=
  process_task_callback_failure "codenamemomi" "CodeRefactorInsight_HNG12_stage3"
    envCallbackFails ((sampleCommits.take 3).map toCommitRecord) rfl (Or.inl rfl) rfl

end CodeRefactorInsight
